import Mathlib

/-!
Shallow embedding of the `mcp-server-scholar-oa` TypeScript sources
(`src/utils/text.ts`, `src/utils/openalex-client.ts`,
`src/utils/openwebui-client.ts`, `src/tools/scholar.ts`) together with
theorems checking the natural-language specification against it.

Strings are modelled by Lean `String` / `List Char`; JavaScript numbers used
for the relevance score are modelled by `ℚ` (the coefficients 0.55 / 0.25 /
0.15 / 0.05 are exact rationals in the spec); byte buffers are `List Nat`;
network effects are modelled by explicit oracle functions passed in an
environment record, and `throw` by `Except String`.
-/

namespace ScholarOA

/-! ### Generic string helpers (JS semantics, ASCII model) -/

/-- Model of JavaScript `String.prototype.toLowerCase` (ASCII range). -/
def lowerStr (s : String) : String := ⟨s.data.map Char.toLower⟩

/-- Model of JavaScript `String.prototype.toUpperCase` (ASCII range). -/
def upperStr (s : String) : String := ⟨s.data.map Char.toUpper⟩

/-- `listIncludes need hay`: does `hay` contain `need` as a contiguous
sublist?  Model of JavaScript `String.prototype.includes` on char lists. -/
def listIncludes (need : List Char) : List Char → Bool
  | [] => need.isEmpty
  | c :: rest => need.isPrefixOf (c :: rest) || listIncludes need rest

/-- Model of JavaScript `hay.includes(need)`. -/
def strIncludes (hay need : String) : Bool := listIncludes need.data hay.data

/-- Model of JavaScript `String.prototype.trim` (also the semantics of
Lean's own `String.trim`, re-implemented so that it reduces by kernel
computation): strip leading and trailing whitespace. -/
def strTrim (s : String) : String :=
  ⟨((s.data.dropWhile Char.isWhitespace).reverse.dropWhile Char.isWhitespace).reverse⟩

/-- JavaScript truthiness of a `string | null` value: `null` and the empty
string are falsy, every other string is truthy. -/
def truthy : Option String → Bool
  | none => false
  | some s => !s.isEmpty

/-! ### `tokenize` / `uniqueTokens` (src/utils/text.ts) -/

/-- First character class of the token regex `[\p{L}\p{N}]` (letters and
digits; ASCII model of the Unicode property classes). -/
def isTokenStart (c : Char) : Bool := c.isAlpha || c.isDigit

/-- Continuation character class `[\p{L}\p{N}_-]` of the token regex. -/
def isTokenCont (c : Char) : Bool := c.isAlpha || c.isDigit || c = '_' || c = '-'

/-- Global matching of `/[\p{L}\p{N}][\p{L}\p{N}_-]*/` over a char list:
skip characters that cannot start a token; at a start character take the
maximal run of continuation characters, then resume after the match.  The
fuel argument (one unit per consumed character, so the list's length
suffices) makes the recursion structural. -/
def tokenizeGo : Nat → List Char → List (List Char)
  | 0, _ => []
  | _ + 1, [] => []
  | fuel + 1, c :: rest =>
    if isTokenStart c then
      (c :: rest.takeWhile isTokenCont) :: tokenizeGo fuel (rest.dropWhile isTokenCont)
    else
      tokenizeGo fuel rest

def tokenizeList (l : List Char) : List (List Char) := tokenizeGo l.length l

/-- `tokenize` from src/utils/text.ts: lowercase the input, then extract all
regex matches. Empty input yields the empty list. -/
def tokenize (input : String) : List String :=
  (tokenizeList (lowerStr input).data).map (fun l => ⟨l⟩)

/-- First-occurrence deduplication, the model of `[...new Set(xs)]`
(JS `Set` iterates in insertion order). `seen` collects emitted elements. -/
def dedupFirstAux {α : Type} [DecidableEq α] (seen : List α) : List α → List α
  | [] => []
  | x :: xs =>
    if x ∈ seen then dedupFirstAux seen xs
    else x :: dedupFirstAux (x :: seen) xs

/-- `[...new Set(xs)]`: duplicates removed, first occurrences kept in order. -/
def dedupFirst {α : Type} [DecidableEq α] (l : List α) : List α := dedupFirstAux [] l

/-- `uniqueTokens` from src/utils/text.ts. -/
def uniqueTokens (input : String) : List String := dedupFirst (tokenize input)

/-! ### `computeRelevanceScore` (src/utils/text.ts) -/

/-- Two-decimal fixed formatting of a nonnegative rational, the model of
JavaScript `Number.prototype.toFixed(2)` used in the reason tags. -/
def toFixed2 (q : ℚ) : String :=
  let n : Nat := (Rat.floor (q * 100 + 1 / 2)).toNat
  let ip := n / 100
  let fp := n % 100
  toString ip ++ "." ++ (if fp < 10 then "0" else "") ++ toString fp

structure RelevanceResult where
  score : ℚ
  reasons : List String
  deriving Repr, DecidableEq

/-- `computeRelevanceScore` from src/utils/text.ts.  `overlap` and
`titleOverlap` count query tokens found in the body/title token sets; the
final score is clamped at 1. -/
def computeRelevanceScore (query title abstract : String) : RelevanceResult :=
  let qTokens := uniqueTokens query
  if qTokens.length = 0 then
    { score := 0, reasons := ["Empty query tokens"] }
  else
    let titleTokens := tokenize title
    let bodyTokens := tokenize (title ++ " " ++ abstract)
    let overlap := qTokens.countP (fun t => bodyTokens.contains t)
    let titleOverlap := qTokens.countP (fun t => titleTokens.contains t)
    let queryCoverage : ℚ := (overlap : ℚ) / (qTokens.length : ℚ)
    let titleCoverage : ℚ := (titleOverlap : ℚ) / (qTokens.length : ℚ)
    let phraseBoost : ℚ := if strIncludes (lowerStr title) (lowerStr query) then 15 / 100 else 0
    let abstractBoost : ℚ := if abstract.length > 0 then 5 / 100 else 0
    let score := min 1 (55 / 100 * queryCoverage + 25 / 100 * titleCoverage + phraseBoost + abstractBoost)
    { score := score
    , reasons :=
        ["query_coverage=" ++ toFixed2 queryCoverage, "title_coverage=" ++ toFixed2 titleCoverage]
          ++ (if phraseBoost > 0 then ["exact_query_phrase_in_title"] else [])
          ++ (if abstractBoost > 0 then ["abstract_available"] else []) }

/-! Specification-side coverage ratios, written from the spec's words
("|Q ∩ tokens(title)| / |Q|" with Q the unique query token set), to be
compared with the counting loop of `computeRelevanceScore`. -/

/-- The unique query token set Q, as a finite set. -/
def queryTokenSet (query : String) : Finset String := (uniqueTokens query).toFinset

/-- Spec-side titleCoverage = |Q ∩ tokens(title)| / |Q|. -/
def titleCoverageSpec (query title : String) : ℚ :=
  ((queryTokenSet query ∩ (tokenize title).toFinset).card : ℚ) / ((queryTokenSet query).card : ℚ)

/-- Spec-side bodyCoverage = |Q ∩ tokens(title ++ " " ++ abstract)| / |Q|. -/
def bodyCoverageSpec (query title abstract : String) : ℚ :=
  ((queryTokenSet query ∩ (tokenize (title ++ " " ++ abstract)).toFinset).card : ℚ) /
    ((queryTokenSet query).card : ℚ)

/-! ### `normalizeOpenAlexId` (src/utils/text.ts) -/

/-- Leftmost match of the regex `/W\d+/i`: scan for a `W`/`w` immediately
followed by a digit, and return that letter with the maximal digit run. -/
def findWorkId : List Char → Option (List Char)
  | [] => none
  | c :: rest =>
    if (c == 'W' || c == 'w') && (rest.headD ' ').isDigit then
      some (c :: rest.takeWhile Char.isDigit)
    else
      findWorkId rest

/-- Does the char list contain a `W`/`w` immediately followed by a digit?
(The condition under which `/W\d+/i` has a match.) -/
def hasWorkId : List Char → Bool
  | [] => false
  | c :: rest => ((c == 'W' || c == 'w') && (rest.headD ' ').isDigit) || hasWorkId rest

structure NormalizedId where
  canonical : String
  short : String
  deriving Repr, DecidableEq

/-- `normalizeOpenAlexId` from src/utils/text.ts: match `/W\d+/i` in the raw
string, throw on no match, else return the uppercased match as `short` and
`https://openalex.org/` ++ short as `canonical`. -/
def normalizeOpenAlexId (raw : String) : Except String NormalizedId :=
  match findWorkId raw.data with
  | none => .error ("Invalid OpenAlex id: " ++ raw)
  | some m =>
    let short : String := ⟨m.map Char.toUpper⟩
    .ok { canonical := "https://openalex.org/" ++ short, short := short }

/-! ### `rebuildAbstractFromInvertedIndex` (src/utils/text.ts) -/

/-- The punctuation class `[,.;:!?]` of the collapse regex. -/
def isPunctMark (c : Char) : Bool :=
  c = ',' || c = '.' || c = ';' || c = ':' || c = '!' || c = '?'

/-- Helper for the global replace `/\s+([,.;:!?])/g → "$1"`: returns the
rewritten list together with a flag telling whether the list begins with
(possibly empty) whitespace followed by a punctuation mark, i.e. whether a
whitespace character placed in front of it would be deleted. -/
def collapseAux : List Char → List Char × Bool
  | [] => ([], false)
  | c :: rest =>
    let (r, flag) := collapseAux rest
    if isPunctMark c then (c :: r, true)
    else if c.isWhitespace then (if flag then r else c :: r, flag)
    else (c :: r, false)

/-- The global replace `/\s+([,.;:!?])/g → "$1"`: every whitespace character
whose next non-whitespace character is one of `,.;:!?` is removed. -/
def collapsePunct (l : List Char) : List Char := (collapseAux l).1

/-- JS `Array.prototype.join(" ")` on strings. -/
def joinSpace (l : List String) : String := String.intercalate " " l

/-- `rebuildAbstractFromInvertedIndex` from src/utils/text.ts.  The inverted
index (a JS object) is modelled as an ordered list of word/positions pairs;
`none` models the `null`/`undefined` input. -/
def maxPositionOf (entries : List (String × List Nat)) : Int :=
  entries.foldl
    (fun acc e => e.2.foldl (fun a (p : Nat) => if (p : Int) > a then (p : Int) else a) acc) (-1)

def rebuildAbstractFromInvertedIndex : Option (List (String × List Nat)) → String
  | none => ""
  | some entries =>
    if maxPositionOf entries < 0 then ""
    else
      let slots : List String :=
        entries.foldl (fun arr e => e.2.foldl (fun a p => a.set p e.1) arr)
          (List.replicate (maxPositionOf entries + 1).toNat "")
      strTrim ⟨collapsePunct (joinSpace (slots.filter (fun t => !(strTrim t).data.isEmpty))).data⟩

/-! ### `tryDownloadPdf` (src/tools/scholar.ts) -/

/-- The observable part of a fetched HTTP response.  `contentLength` is the
parsed numeric value of the `content-length` header (`none` = header absent,
in which case the code falls back to `"0"`); `body` is the byte buffer. -/
structure HttpResponse where
  ok : Bool
  status : Nat
  statusText : String
  contentLength : Option Nat
  contentType : Option String
  body : List Nat
  deriving Repr, DecidableEq

/-- The bytes of the `%PDF` signature. -/
def pdfMagic : List Nat := [0x25, 0x50, 0x44, 0x46]

/-- `tryDownloadPdf` from src/tools/scholar.ts, as a function of the fetched
response: reject non-ok status; reject a declared content length above
80 MiB; reject when neither the content type mentions `pdf` nor the first 4
body bytes are `%PDF`; otherwise return the body bytes. -/
def tryDownloadPdf (response : HttpResponse) : Except String (List Nat) :=
  if !response.ok then
    .error ("HTTP " ++ toString response.status ++ " " ++ response.statusText)
  else
    let contentLength := response.contentLength.getD 0
    if contentLength > 80 * 1024 * 1024 then
      .error ("PDF too large (" ++ toString contentLength ++ " bytes)")
    else
      let contentType := lowerStr (response.contentType.getD "")
      let pdfSignature := response.body.take 4
      if !strIncludes contentType "pdf" && pdfSignature ≠ pdfMagic then
        .error ("Downloaded content is not a PDF (content-type="
          ++ (if contentType.isEmpty then "unknown" else contentType) ++ ")")
      else
        .ok response.body

/-! ### Candidates (src/types.ts) -/

/-- The fields of a `PaperCandidate` used by the ingestion pipeline. -/
structure Candidate where
  openalexId : String
  openalexShortId : String
  title : String
  isOa : Bool
  oaStatus : String
  pdfUrl : Option String
  doi : Option String
  abstract : String
  deriving Repr, DecidableEq

/-! ### Knowledge-store client (src/utils/openwebui-client.ts) -/

/-- A knowledge base as observed from the server.  `access_control = none`
models JSON `null` (public); `some ()` models a restriction object. -/
structure Knowledge where
  id : String
  name : String
  description : String
  access_control : Option Unit
  deriving Repr, DecidableEq

/-- The body sent by `createKnowledgeBase`. -/
structure KnowledgeCreatePayload where
  name : String
  description : String
  access_control : Option Unit
  deriving Repr, DecidableEq

/-- The trimmed lowercased key under which knowledge-base names are
compared: `name.trim().toLowerCase()`. -/
def nameKey (s : String) : String := lowerStr (strTrim s)

/-- External-service oracles for one ingestion run: candidate resolution,
PDF download, file upload, processing-status polling, and the knowledge-base
search/create endpoints.  Each models the observable result of the
corresponding network call (an `Except.error` models a thrown error). -/
structure IngestEnv where
  resolve : String → Candidate
  download : String → Except String (List Nat)
  upload : String → Except String String
  poll : String → Except String String
  searchKB : String → List Knowledge
  createKB : KnowledgeCreatePayload → Knowledge

/-- `getOrCreateKnowledgeBase` from src/utils/openwebui-client.ts: search by
name, reuse the first base whose trimmed lowercased name matches, otherwise
create one with `access_control = null` when `makePublic` else `{}`.
Returns the base and the `created` flag. -/
def getOrCreateKnowledgeBase (env : IngestEnv) (name description : String)
    (makePublic : Bool) : Knowledge × Bool :=
  match (env.searchKB name).find? (fun item => nameKey item.name == nameKey name) with
  | some exact => (exact, false)
  | none =>
    (env.createKB
      { name := name, description := description
      , access_control := if makePublic then none else some () }, true)

/-! ### Ingestion orchestrator (`ingestToOpenWebUITool`, src/tools/scholar.ts) -/

/-- The per-candidate ingestion record pushed onto `processed`. -/
structure IngestRecord where
  openalexId : String
  title : String
  retrievalMode : String
  retrievalNote : String
  fileId : Option String
  status : String
  error : Option String
  deriving Repr, DecidableEq

/-- The retrieval tier of the ingestion loop: when the candidate is OA and
`candidate.pdfUrl` is truthy, attempt the PDF download, recording mode `pdf`
on success and falling back to `abstract-only` with an error-derived note
when the download throws; otherwise record the abstract-only note directly.
Returns `(retrieval_mode, retrieval_note)`. -/
def retrievalStep (download : String → Except String (List Nat)) (candidate : Candidate) :
    String × String :=
  if candidate.isOa && truthy candidate.pdfUrl then
    match download (candidate.pdfUrl.getD "") with
    | .ok _ => ("pdf", "Downloaded OA PDF and uploaded for full embedding.")
    | .error e =>
      ("abstract-only", "PDF download failed (" ++ e ++ "); stored abstract-only note.")
  else
    ("abstract-only", "OA PDF unavailable; stored abstract-only note.")

/-- The error string attached for a terminal poll status. -/
def statusError (status : String) : Option String :=
  if status = "failed" then some "OpenWebUI processing failed"
  else if status = "timeout" then some "OpenWebUI processing timeout"
  else none

/-- One iteration of the ingestion loop for a raw candidate id: resolve the
candidate, run the retrieval tier, upload, poll until terminal.  Returns the
ingestion record together with the file id pushed onto `successfulFileIds`
(`some` exactly in the branch where the polled status is `completed`). -/
def processOne (env : IngestEnv) (rawId : String) : IngestRecord × Option String :=
  let candidate := env.resolve rawId
  let ret := retrievalStep env.download candidate
  match env.upload rawId with
  | .error e =>
    ({ openalexId := candidate.openalexId, title := candidate.title
     , retrievalMode := ret.1, retrievalNote := ret.2
     , fileId := none, status := "failed", error := some e }, none)
  | .ok fid =>
    match env.poll fid with
    | .error e =>
      ({ openalexId := candidate.openalexId, title := candidate.title
       , retrievalMode := ret.1, retrievalNote := ret.2
       , fileId := some fid, status := "failed", error := some e }, none)
    | .ok st =>
      ({ openalexId := candidate.openalexId, title := candidate.title
       , retrievalMode := ret.1, retrievalNote := ret.2
       , fileId := some fid, status := st, error := statusError st },
       if st = "completed" then some fid else none)

/-- The validated inputs of `ingest_candidates_to_openwebui_kb` used by the
orchestration logic. -/
structure IngestInput where
  candidateIds : List String
  knowledgeBaseName : String
  knowledgeBaseDescription : String
  makePublic : Bool
  maxPapers : Nat
  deriving Repr, DecidableEq

/-- The structured ingestion response.  `attachCall = some (kbId, fileIds)`
records the single knowledge-base batch-attach call that was issued;
`none` means the call was skipped. -/
structure IngestResult where
  kbId : String
  kbName : String
  created : Bool
  requestedPublic : Bool
  actualPublic : Bool
  attachCall : Option (String × List String)
  uploadedSuccessCount : Nat
  uploadedFailedCount : Nat
  warning : Option String
  results : List IngestRecord
  deriving Repr, DecidableEq

/-- The candidate loop: fold over the selected ids, appending each record to
`processed` and each completed file id to `successfulFileIds`. -/
def ingestLoop (env : IngestEnv) (ids : List String) :
    List IngestRecord × List String :=
  ids.foldl
    (fun acc rawId =>
      let pr := processOne env rawId
      (acc.1 ++ [pr.1], acc.2 ++ pr.2.toList))
    ([], [])

/-- `ingestToOpenWebUITool` from src/tools/scholar.ts (orchestration logic):
dedupe the candidate ids, cap at `maxPapers`, process each selected id,
resolve/create the knowledge base once, batch-attach the successful file ids
when nonempty, and assemble the response. -/
def ingestToOpenWebUITool (env : IngestEnv) (input : IngestInput) : IngestResult :=
  let uniqueIds := dedupFirst input.candidateIds
  let selectedIds := uniqueIds.take input.maxPapers
  let loop := ingestLoop env selectedIds
  let processed := loop.1
  let successfulFileIds := loop.2
  let kbInfo := getOrCreateKnowledgeBase env input.knowledgeBaseName
    input.knowledgeBaseDescription input.makePublic
  let attachCall :=
    if successfulFileIds.length > 0 then some (kbInfo.1.id, successfulFileIds) else none
  let isPublic := kbInfo.1.access_control.isNone
  { kbId := kbInfo.1.id
  , kbName := kbInfo.1.name
  , created := kbInfo.2
  , requestedPublic := input.makePublic
  , actualPublic := isPublic
  , attachCall := attachCall
  , uploadedSuccessCount := successfulFileIds.length
  , uploadedFailedCount := processed.length - successfulFileIds.length
  , warning :=
      if input.makePublic && !isPublic then
        some "Knowledge base is not publicly readable due to current OpenWebUI permissions. It was created/used with restricted access."
      else none
  , results := processed }

/-! ### Lemmas about `dedupFirst` -/

theorem mem_dedupFirstAux {α : Type} [DecidableEq α] (a : α) :
    ∀ (l seen : List α), a ∈ dedupFirstAux seen l ↔ a ∈ l ∧ a ∉ seen := by
  intro l
  induction l with
  | nil => intro seen; simp [dedupFirstAux]
  | cons x xs ih =>
    intro seen
    by_cases hx : x ∈ seen
    · simp only [dedupFirstAux, if_pos hx, ih, List.mem_cons]
      constructor
      · rintro ⟨h1, h2⟩; exact ⟨Or.inr h1, h2⟩
      · rintro ⟨h1 | h1, h2⟩
        · exact absurd (h1 ▸ hx) h2
        · exact ⟨h1, h2⟩
    · simp only [dedupFirstAux, if_neg hx, List.mem_cons, ih]
      constructor
      · rintro (rfl | ⟨h1, h2⟩)
        · exact ⟨Or.inl rfl, hx⟩
        · exact ⟨Or.inr h1, fun hs => h2 (Or.inr hs)⟩
      · rintro ⟨rfl | h1, h2⟩
        · exact Or.inl rfl
        · by_cases hax : a = x
          · exact Or.inl hax
          · exact Or.inr ⟨h1, fun hs => hs.elim hax h2⟩

theorem dedupFirstAux_nodup {α : Type} [DecidableEq α] :
    ∀ (l seen : List α), (dedupFirstAux seen l).Nodup := by
  intro l
  induction l with
  | nil => intro seen; simp [dedupFirstAux]
  | cons x xs ih =>
    intro seen
    by_cases hx : x ∈ seen
    · simpa [dedupFirstAux, if_pos hx] using ih seen
    · simp only [dedupFirstAux, if_neg hx, List.nodup_cons]
      refine ⟨fun hmem => ?_, ih (x :: seen)⟩
      exact ((mem_dedupFirstAux x xs (x :: seen)).mp hmem).2 (List.mem_cons_self x seen)

theorem dedupFirstAux_sublist {α : Type} [DecidableEq α] :
    ∀ (l seen : List α), (dedupFirstAux seen l).Sublist l := by
  intro l
  induction l with
  | nil => intro seen; simp [dedupFirstAux]
  | cons x xs ih =>
    intro seen
    by_cases hx : x ∈ seen
    · have hrw : dedupFirstAux seen (x :: xs) = dedupFirstAux seen xs := by
        simp [dedupFirstAux, hx]
      rw [hrw]
      exact (ih seen).trans (List.sublist_cons_self x xs)
    · have hrw : dedupFirstAux seen (x :: xs) = x :: dedupFirstAux (x :: seen) xs := by
        simp [dedupFirstAux, hx]
      rw [hrw]
      exact (ih (x :: seen)).cons₂ x

theorem mem_dedupFirst {α : Type} [DecidableEq α] (a : α) (l : List α) :
    a ∈ dedupFirst l ↔ a ∈ l := by
  simp [dedupFirst, mem_dedupFirstAux]

theorem dedupFirst_nodup {α : Type} [DecidableEq α] (l : List α) :
    (dedupFirst l).Nodup := dedupFirstAux_nodup l []

theorem dedupFirst_sublist {α : Type} [DecidableEq α] (l : List α) :
    (dedupFirst l).Sublist l := dedupFirstAux_sublist l []

/-! ### Lemmas about the ingestion loop -/

theorem ingestLoop_go (env : IngestEnv) :
    ∀ (ids : List String) (acc : List IngestRecord × List String),
      ids.foldl
        (fun acc rawId =>
          let pr := processOne env rawId
          (acc.1 ++ [pr.1], acc.2 ++ pr.2.toList))
        acc
      = (acc.1 ++ ids.map (fun id => (processOne env id).1),
         acc.2 ++ ids.filterMap (fun id => (processOne env id).2)) := by
  intro ids
  induction ids with
  | nil => intro acc; simp
  | cons id ids ih =>
    intro acc
    rw [List.foldl_cons, ih]
    cases h : (processOne env id).2 <;>
      simp [List.filterMap_cons, h, List.append_assoc]

theorem ingestLoop_eq (env : IngestEnv) (ids : List String) :
    ingestLoop env ids
      = (ids.map (fun id => (processOne env id).1),
         ids.filterMap (fun id => (processOne env id).2)) := by
  simpa using ingestLoop_go env ids ([], [])

/-- The completed-file projection of an ingestion record: its file id when
its status is `completed`, else nothing. -/
def completedFileId (ir : IngestRecord) : Option String :=
  if ir.status = "completed" then ir.fileId else none

theorem processOne_snd_eq (env : IngestEnv) (id : String) :
    (processOne env id).2 = completedFileId (processOne env id).1 := by
  unfold processOne completedFileId
  cases hu : env.upload id with
  | error e => simp
  | ok fid =>
    cases hp : env.poll fid with
    | error e => simp [hp]
    | ok st =>
      by_cases hst : st = "completed" <;> simp [hp, hst]

theorem processOne_snd_isSome (env : IngestEnv) (id : String) :
    ((processOne env id).2).isSome = ((processOne env id).1.status == "completed") := by
  unfold processOne
  cases hu : env.upload id with
  | error e => simp
  | ok fid =>
    cases hp : env.poll fid with
    | error e => simp [hp]
    | ok st =>
      by_cases hst : st = "completed" <;> simp [hp, hst]

theorem length_filter_split {α : Type} (p : α → Bool) :
    ∀ l : List α, (l.filter p).length + (l.filter (fun a => !(p a))).length = l.length := by
  intro l
  induction l with
  | nil => rfl
  | cons x xs ih =>
    by_cases h : p x <;> simp [List.filter_cons, h, ← ih] <;> omega

theorem loop_success_count (env : IngestEnv) :
    ∀ ids : List String,
      (ids.filterMap (fun id => (processOne env id).2)).length
        = ((ids.map (fun id => (processOne env id).1)).filter
            (fun ir => ir.status == "completed")).length := by
  intro ids
  induction ids with
  | nil => rfl
  | cons id ids ih =>
    have hsome := processOne_snd_isSome env id
    cases h : (processOne env id).2 with
    | none =>
      rw [h] at hsome
      simp only [List.filterMap_cons, h, List.map_cons, List.filter_cons]
      rw [← hsome]
      simpa using ih
    | some fid =>
      rw [h] at hsome
      simp only [List.filterMap_cons, h, List.map_cons, List.filter_cons]
      rw [← hsome]
      simpa using ih

/-! ### Lemmas about `listIncludes` and token counting -/

theorem listIncludes_iff_contiguous (need : List Char) :
    ∀ hay : List Char, listIncludes need hay = true ↔ need <:+: hay := by
  intro hay
  induction hay with
  | nil =>
    simp [listIncludes, List.isEmpty_iff, List.infix_nil]
  | cons c rest ih =>
    simp only [listIncludes, Bool.or_eq_true, ih, List.infix_cons_iff,
      List.isPrefixOf_iff_prefix]

theorem countP_contains_eq_card_inter (l₁ l₂ : List String) (h : l₁.Nodup) :
    l₁.countP (fun t => l₂.contains t) = (l₁.toFinset ∩ l₂.toFinset).card := by
  rw [List.countP_eq_length_filter,
    ← List.toFinset_card_of_nodup (h.filter (fun t => l₂.contains t)),
    List.toFinset_filter]
  congr 1
  ext x
  simp [List.mem_filter, Finset.mem_filter, Finset.mem_inter, List.mem_toFinset]

theorem strIncludes_iff_contiguous (hay need : String) :
    strIncludes hay need = true ↔ need.data <:+: hay.data :=
  listIncludes_iff_contiguous need.data hay.data

theorem string_length_pos_iff (s : String) : s.length > 0 ↔ s ≠ "" := by
  rw [String.length]
  constructor
  · intro h he; subst he; simp at h
  · intro h
    cases hs : s.data with
    | nil => exact absurd (String.ext (by simp [hs])) h
    | cons c cs => simp [hs]

theorem relevance_formula (query title abstract : String) (h : uniqueTokens query ≠ []) :
    (computeRelevanceScore query title abstract).score =
      min 1 (55 / 100 * bodyCoverageSpec query title abstract
        + 25 / 100 * titleCoverageSpec query title
        + (if (lowerStr query).data <:+: (lowerStr title).data then (15 : ℚ) / 100 else 0)
        + (if abstract ≠ "" then (5 : ℚ) / 100 else 0)) := by
  have hn : ¬ (uniqueTokens query).length = 0 := by
    simpa [List.length_eq_zero] using h
  have hnd : (uniqueTokens query).Nodup := dedupFirst_nodup _
  have hb : (((uniqueTokens query).countP
        (fun t => (tokenize (title ++ " " ++ abstract)).contains t) : ℚ)
          / ((uniqueTokens query).length : ℚ))
      = bodyCoverageSpec query title abstract := by
    rw [countP_contains_eq_card_inter _ _ hnd, bodyCoverageSpec, queryTokenSet,
      List.toFinset_card_of_nodup hnd]
  have ht : (((uniqueTokens query).countP (fun t => (tokenize title).contains t) : ℚ)
          / ((uniqueTokens query).length : ℚ))
      = titleCoverageSpec query title := by
    rw [countP_contains_eq_card_inter _ _ hnd, titleCoverageSpec, queryTokenSet,
      List.toFinset_card_of_nodup hnd]
  have hp : (if strIncludes (lowerStr title) (lowerStr query) then (15 : ℚ) / 100 else 0)
      = (if (lowerStr query).data <:+: (lowerStr title).data then (15 : ℚ) / 100 else 0) :=
    if_congr (strIncludes_iff_contiguous _ _) rfl rfl
  have ha : (if abstract.length > 0 then (5 : ℚ) / 100 else 0)
      = (if abstract ≠ "" then (5 : ℚ) / 100 else 0) :=
    if_congr (string_length_pos_iff abstract) rfl rfl
  simp only [computeRelevanceScore, if_neg hn]
  rw [hb, ht, hp, ha]

theorem relevance_score_nonneg (query title abstract : String) :
    0 ≤ (computeRelevanceScore query title abstract).score := by
  by_cases h : (uniqueTokens query).length = 0
  · simp [computeRelevanceScore, h]
  · simp only [computeRelevanceScore, if_neg h]
    have h1 : (0 : ℚ) ≤ (((uniqueTokens query).countP
        (fun t => (tokenize (title ++ " " ++ abstract)).contains t) : ℚ)
          / ((uniqueTokens query).length : ℚ)) :=
      div_nonneg (Nat.cast_nonneg _) (Nat.cast_nonneg _)
    have h2 : (0 : ℚ) ≤ (((uniqueTokens query).countP
        (fun t => (tokenize title).contains t) : ℚ)
          / ((uniqueTokens query).length : ℚ)) :=
      div_nonneg (Nat.cast_nonneg _) (Nat.cast_nonneg _)
    have h3 : (0 : ℚ) ≤ (if strIncludes (lowerStr title) (lowerStr query)
        then (15 : ℚ) / 100 else 0) := by split <;> norm_num
    have h4 : (0 : ℚ) ≤ (if abstract.length > 0 then (5 : ℚ) / 100 else 0) := by
      split <;> norm_num
    refine le_min (by norm_num) ?_
    have h5 : (0 : ℚ) ≤ 55 / 100 * (((uniqueTokens query).countP
        (fun t => (tokenize (title ++ " " ++ abstract)).contains t) : ℚ)
          / ((uniqueTokens query).length : ℚ)) := by positivity
    have h6 : (0 : ℚ) ≤ 25 / 100 * (((uniqueTokens query).countP
        (fun t => (tokenize title).contains t) : ℚ)
          / ((uniqueTokens query).length : ℚ)) := by positivity
    exact add_nonneg (add_nonneg (add_nonneg h5 h6) h3) h4

theorem relevance_score_le_one (query title abstract : String) :
    (computeRelevanceScore query title abstract).score ≤ 1 := by
  by_cases h : (uniqueTokens query).length = 0
  · simp [computeRelevanceScore, h]
  · simp only [computeRelevanceScore, if_neg h]
    exact min_le_left _ _

/-! ### Lemmas about `findWorkId` / `normalizeOpenAlexId` -/

theorem digit_toUpper (c : Char) (h : c.isDigit = true) : c.toUpper = c := by
  unfold Char.toUpper
  rw [if_neg]
  rintro ⟨h1, h2⟩
  simp only [Char.isDigit, Bool.and_eq_true, decide_eq_true_eq] at h
  obtain ⟨hd1, hd2⟩ := h
  simp only [Char.toNat] at h1 h2
  have hle : c.val.toNat ≤ 57 := UInt32.toNat_le_of_le (by norm_num [UInt32.size]) hd2
  omega

theorem findWorkId_none_iff :
    ∀ l : List Char, findWorkId l = none ↔ hasWorkId l = false := by
  intro l
  induction l with
  | nil => simp [findWorkId, hasWorkId]
  | cons c rest ih =>
    rw [findWorkId, hasWorkId]
    by_cases hc : ((c == 'W' || c == 'w') && (rest.headD ' ').isDigit) = true
    · rw [if_pos hc, hc]; simp
    · have hcf : ((c == 'W' || c == 'w') && (rest.headD ' ').isDigit) = false :=
        Bool.not_eq_true _ ▸ hc
      rw [if_neg hc, hcf]
      simpa using ih

theorem findWorkId_shape :
    ∀ (l m : List Char), findWorkId l = some m →
      ∃ c ds, m = c :: ds ∧ (c = 'W' ∨ c = 'w') ∧ ds ≠ [] ∧ ∀ d ∈ ds, d.isDigit := by
  intro l
  induction l with
  | nil => intro m hm; simp [findWorkId] at hm
  | cons c rest ih =>
    intro m hm
    by_cases hc : ((c == 'W' || c == 'w') && (rest.headD ' ').isDigit) = true
    · rw [findWorkId, if_pos hc] at hm
      obtain ⟨hcw, hdig⟩ := Bool.and_eq_true_iff.mp hc
      refine ⟨c, rest.takeWhile Char.isDigit, by simpa using hm.symm, ?_, ?_, ?_⟩
      · rcases Bool.or_eq_true_iff.mp hcw with h | h
        · exact Or.inl (by simpa using h)
        · exact Or.inr (by simpa using h)
      · cases rest with
        | nil => simp at hdig
        | cons d rest' =>
          simp only [List.headD_cons] at hdig
          simp [List.takeWhile_cons, hdig]
      · intro d hd
        exact List.mem_takeWhile_imp hd
    · rw [findWorkId, if_neg hc] at hm
      exact ih m hm

theorem findWorkId_append_skip (l : List Char) :
    ∀ pre : List Char, (∀ c ∈ pre, (c == 'W' || c == 'w') = false) →
      findWorkId (pre ++ l) = findWorkId l := by
  intro pre
  induction pre with
  | nil => intro _; rfl
  | cons c pre' ih =>
    intro hall
    have hc : (c == 'W' || c == 'w') = false := hall c (List.mem_cons_self c pre')
    rw [List.cons_append, findWorkId, if_neg (by simp [hc])]
    exact ih (fun x hx => hall x (List.mem_cons_of_mem c hx))

theorem findWorkId_W_digits (ds : List Char) (hne : ds ≠ [])
    (hall : ∀ d ∈ ds, d.isDigit) : findWorkId ('W' :: ds) = some ('W' :: ds) := by
  cases ds with
  | nil => exact absurd rfl hne
  | cons d ds' =>
    have hd : d.isDigit = true := hall d (List.mem_cons_self d ds')
    rw [findWorkId, if_pos (by simp [hd])]
    congr 2
    rw [List.takeWhile_eq_self_iff]
    exact hall

theorem normalize_ok_shape (raw : String) (r : NormalizedId)
    (h : normalizeOpenAlexId raw = .ok r) :
    ∃ ds : List Char, ds ≠ [] ∧ (∀ d ∈ ds, d.isDigit) ∧
      r.short = ⟨'W' :: ds⟩ ∧ r.canonical = "https://openalex.org/" ++ r.short := by
  unfold normalizeOpenAlexId at h
  cases hf : findWorkId raw.data with
  | none => rw [hf] at h; exact absurd h (by simp)
  | some m =>
    rw [hf] at h
    obtain ⟨c, ds, rfl, hcw, hne, hdig⟩ := findWorkId_shape raw.data m hf
    simp only [Except.ok.injEq] at h
    have hmapds : ds.map Char.toUpper = ds := by
      calc ds.map Char.toUpper = ds.map id :=
            List.map_congr_left (fun d hd => digit_toUpper d (hdig d hd))
        _ = ds := List.map_id ds
    have hup : c.toUpper = 'W' := by
      rcases hcw with rfl | rfl <;> decide
    refine ⟨ds, hne, hdig, ?_, ?_⟩
    · rw [← h]
      simp [hmapds, hup]
    · rw [← h]

theorem normalize_idempotent (raw : String) (r : NormalizedId)
    (h : normalizeOpenAlexId raw = .ok r) :
    normalizeOpenAlexId r.canonical = .ok r := by
  obtain ⟨ds, hne, hdig, hshort, hcanon⟩ := normalize_ok_shape raw r h
  cases r with
  | mk can sh =>
    simp only at hshort hcanon
    subst hshort
    subst hcanon
    unfold normalizeOpenAlexId
    have hdata : ("https://openalex.org/" ++ (⟨'W' :: ds⟩ : String)).data
        = "https://openalex.org/".data ++ ('W' :: ds) := by
      rw [String.data_append]
    rw [hdata, findWorkId_append_skip _ _ (by decide), findWorkId_W_digits ds hne hdig]
    have hmap : ('W' :: ds).map Char.toUpper = 'W' :: ds := by
      have hmapds : ds.map Char.toUpper = ds := by
        calc ds.map Char.toUpper = ds.map id :=
              List.map_congr_left (fun d hd => digit_toUpper d (hdig d hd))
          _ = ds := List.map_id ds
      simp [hmapds]
    simp [hmap]

/-! ### Characterization of the orchestrator's output -/

theorem ingest_characterization (env : IngestEnv) (input : IngestInput) :
    (ingestToOpenWebUITool env input).results
        = ((dedupFirst input.candidateIds).take input.maxPapers).map
            (fun id => (processOne env id).1)
    ∧ (ingestToOpenWebUITool env input).attachCall
        = (if 0 < (((dedupFirst input.candidateIds).take input.maxPapers).filterMap
              (fun id => (processOne env id).2)).length
           then some ((getOrCreateKnowledgeBase env input.knowledgeBaseName
                input.knowledgeBaseDescription input.makePublic).1.id,
              ((dedupFirst input.candidateIds).take input.maxPapers).filterMap
                (fun id => (processOne env id).2))
           else none)
    ∧ (ingestToOpenWebUITool env input).uploadedSuccessCount
        = (((dedupFirst input.candidateIds).take input.maxPapers).filterMap
            (fun id => (processOne env id).2)).length
    ∧ (ingestToOpenWebUITool env input).uploadedFailedCount
        = (((dedupFirst input.candidateIds).take input.maxPapers).map
            (fun id => (processOne env id).1)).length
          - (((dedupFirst input.candidateIds).take input.maxPapers).filterMap
              (fun id => (processOne env id).2)).length := by
  refine ⟨?_, ?_, ?_, ?_⟩ <;>
    simp [ingestToOpenWebUITool, ingestLoop_eq]

theorem completedFileId_eq_some (ir : IngestRecord) (fid : String) :
    completedFileId ir = some fid ↔ ir.status = "completed" ∧ ir.fileId = some fid := by
  unfold completedFileId
  by_cases h : ir.status = "completed" <;> simp [h]

theorem success_as_filterMap (env : IngestEnv) (ids : List String) :
    ids.filterMap (fun id => (processOne env id).2)
      = (ids.map (fun id => (processOne env id).1)).filterMap completedFileId := by
  rw [List.filterMap_map]
  have h : (completedFileId ∘ fun id => (processOne env id).1)
      = fun id => (processOne env id).2 :=
    funext fun id => (processOne_snd_eq env id).symm
  rw [h]

/-! ### Lemmas about the retrieval tier -/

theorem retrievalStep_not_attempted {dl : String → Except String (List Nat)}
    {c : Candidate} (h : c.isOa = false ∨ c.pdfUrl = none ∨ c.pdfUrl = some "") :
    retrievalStep dl c = ("abstract-only", "OA PDF unavailable; stored abstract-only note.") := by
  unfold retrievalStep
  rcases h with h | h | h
  · simp [h]
  · have ht : truthy c.pdfUrl = false := by rw [h]; rfl
    simp [ht]
  · have ht : truthy c.pdfUrl = false := by rw [h]; rfl
    simp [ht]

theorem retrievalStep_dl_ok {dl : String → Except String (List Nat)} {c : Candidate}
    {url : String} {bytes : List Nat} (hoa : c.isOa = true) (hurl : c.pdfUrl = some url)
    (hne : url ≠ "") (hdl : dl url = .ok bytes) :
    retrievalStep dl c = ("pdf", "Downloaded OA PDF and uploaded for full embedding.") := by
  unfold retrievalStep
  have hemp : url.isEmpty = false := by
    cases he : url.isEmpty
    · rfl
    · exact absurd ((String.isEmpty_iff url).mp he) hne
  rw [if_pos (by simp [hoa, hurl, truthy, hemp])]
  rw [hurl]
  simp only [Option.getD_some]
  rw [hdl]

theorem retrievalStep_dl_error {dl : String → Except String (List Nat)} {c : Candidate}
    {url e : String} (hoa : c.isOa = true) (hurl : c.pdfUrl = some url)
    (hne : url ≠ "") (hdl : dl url = .error e) :
    retrievalStep dl c
      = ("abstract-only", "PDF download failed (" ++ e ++ "); stored abstract-only note.") := by
  unfold retrievalStep
  have hemp : url.isEmpty = false := by
    cases he : url.isEmpty
    · rfl
    · exact absurd ((String.isEmpty_iff url).mp he) hne
  rw [if_pos (by simp [hoa, hurl, truthy, hemp])]
  rw [hurl]
  simp only [Option.getD_some]
  rw [hdl]

theorem retrievalStep_mode_pdf_iff (dl : String → Except String (List Nat)) (c : Candidate) :
    (retrievalStep dl c).1 = "pdf" ↔
      (c.isOa = true ∧ ∃ url, c.pdfUrl = some url ∧ url ≠ "" ∧ ∃ bytes, dl url = .ok bytes) := by
  constructor
  · intro hmode
    by_cases hoa : c.isOa
    · cases hurl : c.pdfUrl with
      | none =>
        rw [retrievalStep_not_attempted (Or.inr (Or.inl hurl))] at hmode
        exact absurd hmode (by decide)
      | some url =>
        by_cases hu : url = ""
        · subst hu
          rw [retrievalStep_not_attempted (Or.inr (Or.inr hurl))] at hmode
          exact absurd hmode (by decide)
        · cases hdl : dl url with
          | error e =>
            rw [retrievalStep_dl_error hoa hurl hu hdl] at hmode
            have hmode' : ("abstract-only" : String) = "pdf" := hmode
            exact absurd hmode' (by decide)
          | ok bytes =>
            exact ⟨hoa, url, rfl, hu, bytes, hdl⟩
    · rw [retrievalStep_not_attempted (Or.inl (Bool.not_eq_true _ ▸ hoa))] at hmode
      exact absurd hmode (by decide)
  · rintro ⟨hoa, url, hurl, hne, bytes, hdl⟩
    rw [retrievalStep_dl_ok hoa hurl hne hdl]

/-! ### Concrete fixtures used by witnesses and examples -/

/-- A 404 response, as returned by a fetch of a dead PDF link. -/
def notFoundResponse : HttpResponse :=
  { ok := false, status := 404, statusText := "Not Found", contentLength := none
  , contentType := none, body := [] }

/-- A download oracle whose every fetch yields HTTP 404. -/
def download404 : String → Except String (List Nat) := fun _ => tryDownloadPdf notFoundResponse

/-- A download oracle that always succeeds. -/
def alwaysOkDownload : String → Except String (List Nat) := fun _ => .ok pdfMagic

/-- An open-access candidate with a PDF URL. -/
def oaCandidate : Candidate :=
  { openalexId := "https://openalex.org/W11", openalexShortId := "W11"
  , title := "Paper", isOa := true, oaStatus := "gold"
  , pdfUrl := some "https://example.org/paper.pdf", doi := none, abstract := "Text" }

/-- The same candidate, not open access. -/
def nonOaCandidate : Candidate := { oaCandidate with isOa := false }

/-- An open-access candidate whose PDF URL is the empty string. -/
def emptyUrlCandidate : Candidate := { oaCandidate with pdfUrl := some "" }

/-- A response whose declared content length is small but whose body
exceeds 80 MiB. -/
def oversizedPdfResponse : HttpResponse :=
  { ok := true, status := 200, statusText := "OK", contentLength := some 1024
  , contentType := some "application/pdf"
  , body := List.replicate (80 * 1024 * 1024 + 1) 0x25 }

/-- Abstract-only candidates keyed by id, for the ingestion fixtures. -/
def wCandidate (id : String) : Candidate :=
  { openalexId := id, openalexShortId := id, title := "T" ++ id
  , isOa := false, oaStatus := "closed", pdfUrl := none, doi := none, abstract := "" }

/-- Ingestion environment in which W1 completes, W2 fails, W3 times out and
W4's upload throws. -/
def witnessEnv : IngestEnv :=
  { resolve := fun id => wCandidate id
  , download := download404
  , upload := fun id => if id = "W4" then .error "upload refused" else .ok ("file-" ++ id)
  , poll := fun fid =>
      if fid = "file-W1" then .ok "completed"
      else if fid = "file-W2" then .ok "failed"
      else if fid = "file-W3" then .ok "timeout"
      else .error "poll error"
  , searchKB := fun _ => []
  , createKB := fun p =>
      { id := "kb-1", name := p.name, description := p.description
      , access_control := p.access_control } }

def witnessInput : IngestInput :=
  { candidateIds := ["W1", "W2", "W3", "W4", "W1"]
  , knowledgeBaseName := "KB", knowledgeBaseDescription := "D"
  , makePublic := true, maxPapers := 10 }

/-- Three distinct candidate ids with `maxPapers = 1`. -/
def exInput : IngestInput :=
  { candidateIds := ["W1", "W2", "W3"]
  , knowledgeBaseName := "KB", knowledgeBaseDescription := "D"
  , makePublic := true, maxPapers := 1 }

/-! ### Claim theorems -/

/-- Claim C3: for every query whose unique token set Q is non-empty,
`computeRelevanceScore` returns min(1, 0.55·bodyCoverage + 0.25·titleCoverage
+ phraseBoost + abstractBoost), with bodyCoverage = |Q ∩ tokens(title+" "+abstract)|/|Q|,
titleCoverage = |Q ∩ tokens(title)|/|Q|, phraseBoost = 0.15 exactly when the
lowercased query is a substring of the lowercased title, and abstractBoost =
0.05 exactly when the abstract is non-empty; the result always lies in [0,1];
an empty query token set yields score 0. -/
theorem claim_C3_relevance_score (query title abstract : String) :
    (uniqueTokens query = [] → (computeRelevanceScore query title abstract).score = 0)
    ∧ (uniqueTokens query ≠ [] →
        (computeRelevanceScore query title abstract).score =
          min 1 (55 / 100 * bodyCoverageSpec query title abstract
            + 25 / 100 * titleCoverageSpec query title
            + (if (lowerStr query).data <:+: (lowerStr title).data then (15 : ℚ) / 100 else 0)
            + (if abstract ≠ "" then (5 : ℚ) / 100 else 0)))
    ∧ 0 ≤ (computeRelevanceScore query title abstract).score
    ∧ (computeRelevanceScore query title abstract).score ≤ 1 := by
  refine ⟨?_, relevance_formula query title abstract,
    relevance_score_nonneg query title abstract, relevance_score_le_one query title abstract⟩
  intro h
  have h0 : (uniqueTokens query).length = 0 := by simp [h]
  simp [computeRelevanceScore, h0]

theorem claim_C3_relevance_score_witness :
    uniqueTokens "cat" ≠ []
    ∧ (computeRelevanceScore "cat" "cat dog" "the cat").score =
        min 1 (55 / 100 * bodyCoverageSpec "cat" "cat dog" "the cat"
          + 25 / 100 * titleCoverageSpec "cat" "cat dog"
          + (if (lowerStr "cat").data <:+: (lowerStr "cat dog").data then (15 : ℚ) / 100 else 0)
          + (if ("the cat" : String) ≠ "" then (5 : ℚ) / 100 else 0)) :=
  ⟨by decide, (claim_C3_relevance_score "cat" "cat dog" "the cat").2.1 (by decide)⟩

/-! Helper computations for claim C4 (Nat-level facts by kernel evaluation,
ℚ-level facts by `norm_num`). -/

theorem c4_cardQ : (queryTokenSet "graph neural network").card = 3 := by decide

theorem c4_cardBody :
    (queryTokenSet "graph neural network" ∩
      (tokenize ("Graph Neural Networks for Protein Function" ++ " " ++ "")).toFinset).card
      = 2 := by decide

theorem c4_cardTitle :
    (queryTokenSet "graph neural network" ∩
      (tokenize "Graph Neural Networks for Protein Function").toFinset).card = 2 := by decide

theorem c4_bodyCoverage :
    bodyCoverageSpec "graph neural network"
      "Graph Neural Networks for Protein Function" "" = 2 / 3 := by
  rw [bodyCoverageSpec, c4_cardBody, c4_cardQ]
  norm_num

theorem c4_titleCoverage :
    titleCoverageSpec "graph neural network"
      "Graph Neural Networks for Protein Function" = 2 / 3 := by
  rw [titleCoverageSpec, c4_cardTitle, c4_cardQ]
  norm_num

theorem c4_phrase :
    (lowerStr "graph neural network").data <:+:
      (lowerStr "Graph Neural Networks for Protein Function").data := by decide

theorem c4_score_value :
    (computeRelevanceScore "graph neural network"
      "Graph Neural Networks for Protein Function" "").score = 41 / 60 := by
  rw [relevance_formula _ _ _ (by decide), c4_bodyCoverage, c4_titleCoverage,
    if_pos c4_phrase, if_neg (by simp)]
  rw [min_eq_right (by norm_num)]
  norm_num

/-- Claim C4 counterexample: on query "graph neural network", title
"Graph Neural Networks for Protein Function" and empty abstract, the score
is not 0.80, the title coverage is not 1 (the token "network" does not match
"networks"), and the lowercased query IS a literal substring of the
lowercased title (so the phrase boost applies, contrary to the claim). -/
theorem claim_C4_counterexample :
    (computeRelevanceScore "graph neural network"
        "Graph Neural Networks for Protein Function" "").score ≠ 80 / 100
    ∧ titleCoverageSpec "graph neural network"
        "Graph Neural Networks for Protein Function" ≠ 1
    ∧ strIncludes (lowerStr "Graph Neural Networks for Protein Function")
        (lowerStr "graph neural network") = true := by
  refine ⟨?_, ?_, by decide⟩
  · rw [c4_score_value]; norm_num
  · rw [c4_titleCoverage]; norm_num

/-- Claim C4 (amended): on the same inputs the coverages are 2/3, the phrase
boost applies (the lowercased query is a substring of the lowercased title),
the abstract boost is 0, and the score is
0.55·(2/3) + 0.25·(2/3) + 0.15 = 41/60 ≈ 0.683. -/
theorem claim_C4_amended :
    bodyCoverageSpec "graph neural network"
        "Graph Neural Networks for Protein Function" "" = 2 / 3
    ∧ titleCoverageSpec "graph neural network"
        "Graph Neural Networks for Protein Function" = 2 / 3
    ∧ (lowerStr "graph neural network").data <:+:
        (lowerStr "Graph Neural Networks for Protein Function").data
    ∧ ("" : String).length = 0
    ∧ (computeRelevanceScore "graph neural network"
        "Graph Neural Networks for Protein Function" "").score
      = min 1 ((55 : ℚ) / 100 * (2 / 3) + 25 / 100 * (2 / 3) + 15 / 100 + 0)
    ∧ (computeRelevanceScore "graph neural network"
        "Graph Neural Networks for Protein Function" "").score = 41 / 60 := by
  refine ⟨c4_bodyCoverage, c4_titleCoverage, c4_phrase, rfl, ?_, c4_score_value⟩
  rw [c4_score_value, min_eq_right (by norm_num)]
  norm_num

/-- Claim C8: `normalizeOpenAlexId` extracts the work-ID pattern (the letter
`W` followed by digits, case-insensitively) from any input string (raw id,
short form or full URL), returning canonical = the fixed URL prefix plus the
uppercased short form; it throws an identifier-format error exactly when the
input contains no such pattern (e.g. "not-an-id"); and it is idempotent:
normalizing the canonical output yields the same canonical/short pair. -/
theorem claim_C8_normalize_id :
    (∀ raw : String,
      (∃ e, normalizeOpenAlexId raw = .error e) ↔ hasWorkId raw.data = false)
    ∧ (∀ (raw : String) (r : NormalizedId), normalizeOpenAlexId raw = .ok r →
        r.canonical = "https://openalex.org/" ++ r.short
        ∧ r.short = upperStr r.short
        ∧ normalizeOpenAlexId r.canonical = .ok r)
    ∧ normalizeOpenAlexId "W123" = .ok ⟨"https://openalex.org/W123", "W123"⟩
    ∧ normalizeOpenAlexId "w123" = .ok ⟨"https://openalex.org/W123", "W123"⟩
    ∧ normalizeOpenAlexId "https://openalex.org/w123"
        = .ok ⟨"https://openalex.org/W123", "W123"⟩
    ∧ normalizeOpenAlexId "not-an-id" = .error "Invalid OpenAlex id: not-an-id" := by
  refine ⟨?_, ?_, rfl, rfl, rfl, rfl⟩
  · intro raw
    constructor
    · rintro ⟨e, he⟩
      unfold normalizeOpenAlexId at he
      cases hf : findWorkId raw.data with
      | none => exact (findWorkId_none_iff raw.data).mp hf
      | some m => rw [hf] at he; exact absurd he (by simp)
    · intro hno
      unfold normalizeOpenAlexId
      rw [(findWorkId_none_iff raw.data).mpr hno]
      exact ⟨_, rfl⟩
  · intro raw r h
    obtain ⟨ds, hne, hdig, hshort, hcanon⟩ := normalize_ok_shape raw r h
    refine ⟨hcanon, ?_, normalize_idempotent raw r h⟩
    rw [hshort]
    unfold upperStr
    have hmapds : ds.map Char.toUpper = ds := by
      calc ds.map Char.toUpper = ds.map id :=
            List.map_congr_left (fun d hd => digit_toUpper d (hdig d hd))
        _ = ds := List.map_id ds
    simp [hmapds]

theorem claim_C8_normalize_id_witness :
    normalizeOpenAlexId "https://openalex.org/W0042"
      = .ok ⟨"https://openalex.org/W0042", "W0042"⟩ :=
  (claim_C8_normalize_id.2.1 "Wow w0042 id"
    ⟨"https://openalex.org/W0042", "W0042"⟩ rfl).2.2

/-- Claim C9: `rebuildAbstractFromInvertedIndex` places each word at each of
its listed positions, joins the non-empty slots with single spaces, removes
whitespace immediately before the punctuation marks, and skips unfilled
gaps; a null index or one with no positions yields ""; the two literal
examples of the spec evaluate as stated. -/
theorem claim_C9_rebuild_abstract :
    rebuildAbstractFromInvertedIndex none = ""
    ∧ (∀ entries : List (String × List Nat), (∀ e ∈ entries, e.2 = []) →
        rebuildAbstractFromInvertedIndex (some entries) = "")
    ∧ rebuildAbstractFromInvertedIndex
        (some [("The", [0]), ("cat", [1]), ("sat.", [2])]) = "The cat sat."
    ∧ rebuildAbstractFromInvertedIndex
        (some [("Go", [0]), (",", [1]), ("see", [2])]) = "Go, see"
    ∧ rebuildAbstractFromInvertedIndex (some [("a", [0]), ("b", [2])]) = "a b" := by
  refine ⟨rfl, ?_, by decide, by decide, by decide⟩
  intro entries h
  have hmax : ∀ (es : List (String × List Nat)), (∀ e ∈ es, e.2 = []) → ∀ acc : Int,
      es.foldl
        (fun acc e => e.2.foldl (fun a (p : Nat) => if (p : Int) > a then (p : Int) else a) acc)
        acc = acc := by
    intro es
    induction es with
    | nil => intro _ acc; rfl
    | cons e es ih =>
      intro hh acc
      rw [List.foldl_cons, hh e (List.mem_cons_self e es)]
      exact ih (fun x hx => hh x (List.mem_cons_of_mem e hx)) acc
  have hm : maxPositionOf entries = -1 := hmax entries h (-1)
  simp only [rebuildAbstractFromInvertedIndex, hm]
  norm_num

theorem claim_C9_rebuild_abstract_witness :
    rebuildAbstractFromInvertedIndex (some [("x", []), ("y", [])]) = "" :=
  claim_C9_rebuild_abstract.2.1 [("x", []), ("y", [])] (by decide)

/-- Claim C5 counterexample: a response whose body is larger than 80 MiB but
whose declared content-length header is small is accepted and its bytes are
returned — the code checks only the declared header value, never the
measured body size, so "every response body larger than 80 MiB is rejected
regardless of what the content-length header declares" is false. -/
theorem claim_C5_counterexample :
    80 * 1024 * 1024 < oversizedPdfResponse.body.length
    ∧ oversizedPdfResponse.contentLength = some 1024
    ∧ tryDownloadPdf oversizedPdfResponse = .ok oversizedPdfResponse.body := by
  refine ⟨?_, rfl, rfl⟩
  show 80 * 1024 * 1024 < (List.replicate (80 * 1024 * 1024 + 1) 0x25).length
  rw [List.length_replicate]
  omega

/-- Claim C5 (amended): `tryDownloadPdf` throws exactly when the HTTP status
is not a success status, or the DECLARED content length (the parsed
content-length header, defaulting to 0 when absent) exceeds 80 MiB, or
neither the content-type header nor the first 4 body bytes indicate a PDF;
otherwise it returns the downloaded bytes.  The measured body size is never
checked. -/
theorem claim_C5_amended (resp : HttpResponse) :
    ((∃ e, tryDownloadPdf resp = .error e) ↔
      (resp.ok = false
        ∨ 80 * 1024 * 1024 < resp.contentLength.getD 0
        ∨ (strIncludes (lowerStr (resp.contentType.getD "")) "pdf" = false
            ∧ resp.body.take 4 ≠ pdfMagic)))
    ∧ (¬ (resp.ok = false
        ∨ 80 * 1024 * 1024 < resp.contentLength.getD 0
        ∨ (strIncludes (lowerStr (resp.contentType.getD "")) "pdf" = false
            ∧ resp.body.take 4 ≠ pdfMagic)) →
        tryDownloadPdf resp = .ok resp.body) := by
  unfold tryDownloadPdf
  by_cases hok : resp.ok
  · rw [hok]
    simp only [Bool.not_true, Bool.false_eq_true, if_false]
    by_cases hcl : resp.contentLength.getD 0 > 80 * 1024 * 1024
    · rw [if_pos hcl]
      constructor
      · exact ⟨fun _ => Or.inr (Or.inl hcl), fun _ => ⟨_, rfl⟩⟩
      · intro hno
        exact absurd (Or.inr (Or.inl hcl)) hno
    · rw [if_neg hcl]
      by_cases hpdf : (!strIncludes (lowerStr (resp.contentType.getD "")) "pdf"
          && decide (resp.body.take 4 ≠ pdfMagic)) = true
      · rw [if_pos hpdf]
        simp only [Bool.and_eq_true, Bool.not_eq_true', decide_eq_true_eq] at hpdf
        constructor
        · exact ⟨fun _ => Or.inr (Or.inr hpdf), fun _ => ⟨_, rfl⟩⟩
        · intro hno
          exact absurd (Or.inr (Or.inr hpdf)) hno
      · rw [if_neg hpdf]
        simp only [Bool.and_eq_true, Bool.not_eq_true', decide_eq_true_eq, not_and,
          Decidable.not_not] at hpdf
        constructor
        · constructor
          · rintro ⟨e, he⟩
            exact absurd he (by simp)
          · rintro (h | h | ⟨h1, h2⟩)
            · exact absurd h (by simp)
            · exact absurd h hcl
            · exact absurd (hpdf h1) h2
        · intro _
          rfl
  · have hok' : resp.ok = false := Bool.not_eq_true _ ▸ hok
    rw [hok']
    simp only [Bool.not_false, if_true]
    constructor
    · exact ⟨fun _ => Or.inl trivial, fun _ => ⟨_, rfl⟩⟩
    · intro hno
      exact absurd (Or.inl trivial) hno

theorem claim_C5_amended_witness :
    tryDownloadPdf notFoundResponse = .error "HTTP 404 Not Found"
    ∧ (∃ e, tryDownloadPdf notFoundResponse = .error e) :=
  ⟨rfl, (claim_C5_amended notFoundResponse).1.mpr (Or.inl rfl)⟩

/-- Claim C1 counterexample: an open-access candidate whose PDF URL is the
empty string (non-null!) is sent down the abstract-only tier even though the
download oracle would succeed — JavaScript truthiness of
`candidate.pdfUrl` treats `""` like `null`, so "mode is pdf exactly when the
candidate is open-access, has a non-null PDF URL, and the download succeeds"
fails at this input. -/
theorem claim_C1_counterexample :
    emptyUrlCandidate.isOa = true
    ∧ emptyUrlCandidate.pdfUrl = some ""
    ∧ emptyUrlCandidate.pdfUrl ≠ none
    ∧ alwaysOkDownload "" = .ok pdfMagic
    ∧ (retrievalStep alwaysOkDownload emptyUrlCandidate).1 = "abstract-only"
    ∧ (retrievalStep alwaysOkDownload emptyUrlCandidate).2
        = "OA PDF unavailable; stored abstract-only note." := by
  refine ⟨rfl, rfl, by decide, rfl, rfl, rfl⟩

/-- Claim C1 (amended): the recorded retrieval mode is "pdf" exactly when
the candidate is open-access, has a non-null and NON-EMPTY PDF URL, and the
download succeeds (with the fixed success note); when the OA flag is false
or the URL is null or empty, the mode is "abstract-only" with the
unavailable note; when the download throws, the mode is "abstract-only"
with a note embedding the caught error message (an HTTP 404 yields a note
containing "HTTP 404"); and no retrieval outcome changes the number of
per-candidate records, so no candidate's retrieval failure aborts the
ingestion call. -/
theorem claim_C1_amended :
    (∀ (dl : String → Except String (List Nat)) (c : Candidate),
      ((retrievalStep dl c).1 = "pdf" ↔
        (c.isOa = true ∧ ∃ url, c.pdfUrl = some url ∧ url ≠ ""
          ∧ ∃ bytes, dl url = .ok bytes))
      ∧ ((retrievalStep dl c).1 = "pdf" →
          (retrievalStep dl c).2 = "Downloaded OA PDF and uploaded for full embedding.")
      ∧ ((c.isOa = false ∨ c.pdfUrl = none ∨ c.pdfUrl = some "") →
          retrievalStep dl c
            = ("abstract-only", "OA PDF unavailable; stored abstract-only note."))
      ∧ (∀ url e, c.isOa = true → c.pdfUrl = some url → url ≠ "" → dl url = .error e →
          retrievalStep dl c
            = ("abstract-only", "PDF download failed (" ++ e ++ "); stored abstract-only note.")))
    ∧ (∀ (env : IngestEnv) (input : IngestInput),
        (ingestToOpenWebUITool env input).results.length
          = ((dedupFirst input.candidateIds).take input.maxPapers).length)
    ∧ retrievalStep download404 oaCandidate
        = ("abstract-only", "PDF download failed (HTTP 404 Not Found); stored abstract-only note.")
    ∧ strIncludes (retrievalStep download404 oaCandidate).2 "HTTP 404" = true := by
  refine ⟨?_, ?_, rfl, rfl⟩
  · intro dl c
    refine ⟨retrievalStep_mode_pdf_iff dl c, ?_, retrievalStep_not_attempted,
      fun url e hoa hurl hne hdl => retrievalStep_dl_error hoa hurl hne hdl⟩
    intro hmode
    obtain ⟨hoa, url, hurl, hne, bytes, hdl⟩ := (retrievalStep_mode_pdf_iff dl c).mp hmode
    rw [retrievalStep_dl_ok hoa hurl hne hdl]
  · intro env input
    rw [(ingest_characterization env input).1, List.length_map]

theorem claim_C1_amended_witness :
    retrievalStep download404 nonOaCandidate
      = ("abstract-only", "OA PDF unavailable; stored abstract-only note.") :=
  (claim_C1_amended.1 download404 nonOaCandidate).2.2.1 (Or.inl rfl)

/-- Claim C2: the file-id list of the single batch-attach call is exactly
the uploaded file ids whose polled terminal status is "completed"; a file
that failed, timed out, or whose upload/poll threw never contributes an id;
and the batch-attach call is skipped exactly when the successful set is
empty. -/
theorem claim_C2_attach_exactness (env : IngestEnv) (input : IngestInput) :
    ((ingestToOpenWebUITool env input).attachCall = none ↔
      (ingestToOpenWebUITool env input).results.filterMap completedFileId = [])
    ∧ (∀ kbid fids, (ingestToOpenWebUITool env input).attachCall = some (kbid, fids) →
        fids = (ingestToOpenWebUITool env input).results.filterMap completedFileId
        ∧ (∀ fid, fid ∈ fids ↔
            ∃ ir ∈ (ingestToOpenWebUITool env input).results,
              ir.status = "completed" ∧ ir.fileId = some fid)) := by
  obtain ⟨hres, hatt, _, _⟩ := ingest_characterization env input
  have hS : (ingestToOpenWebUITool env input).results.filterMap completedFileId
      = ((dedupFirst input.candidateIds).take input.maxPapers).filterMap
          (fun id => (processOne env id).2) := by
    rw [hres, ← success_as_filterMap]
  constructor
  · rw [hatt, hS]
    cases hc : ((dedupFirst input.candidateIds).take input.maxPapers).filterMap
        (fun id => (processOne env id).2) with
    | nil => simp
    | cons a l => simp
  · intro kbid fids hsome
    rw [hatt] at hsome
    by_cases hpos : 0 < (((dedupFirst input.candidateIds).take input.maxPapers).filterMap
        (fun id => (processOne env id).2)).length
    · rw [if_pos hpos] at hsome
      injection hsome with hpair
      injection hpair with hkb hfids
      subst hfids
      constructor
      · exact hS.symm
      · intro fid
        rw [← hS]
        constructor
        · intro hmem
          obtain ⟨ir, hirmem, hir⟩ := List.mem_filterMap.mp hmem
          exact ⟨ir, hirmem, (completedFileId_eq_some ir fid).mp hir⟩
        · rintro ⟨ir, hirmem, h1, h2⟩
          exact List.mem_filterMap.mpr ⟨ir, hirmem, (completedFileId_eq_some ir fid).mpr ⟨h1, h2⟩⟩
    · rw [if_neg hpos] at hsome
      exact absurd hsome (by simp)

theorem claim_C2_attach_exactness_witness :
    (ingestToOpenWebUITool witnessEnv witnessInput).attachCall = some ("kb-1", ["file-W1"])
    ∧ ∃ ir ∈ (ingestToOpenWebUITool witnessEnv witnessInput).results,
        ir.status = "completed" ∧ ir.fileId = some "file-W1" := by
  refine ⟨by decide, ?_⟩
  have h := ((claim_C2_attach_exactness witnessEnv witnessInput).2 "kb-1" ["file-W1"]
    (by decide)).2 "file-W1"
  exact h.mp (by decide)

/-- Claim C6: the candidate id list is deduplicated preserving the order of
first occurrence, truncated to the first maxPapers entries, and exactly the
selected ids are processed, one result record per selected id; the dropped
excess ids are processed nowhere (e.g. maxPapers = 1 with 3 distinct ids
produces exactly 1 record). -/
theorem claim_C6_dedup_cap :
    (∀ (env : IngestEnv) (input : IngestInput),
      (ingestToOpenWebUITool env input).results
        = ((dedupFirst input.candidateIds).take input.maxPapers).map
            (fun id => (processOne env id).1))
    ∧ (∀ ids : List String,
        (dedupFirst ids).Nodup ∧ (dedupFirst ids).Sublist ids
          ∧ ∀ x, x ∈ dedupFirst ids ↔ x ∈ ids)
    ∧ (∀ (env : IngestEnv) (input : IngestInput),
        (ingestToOpenWebUITool env input).results.length
          = min input.maxPapers (dedupFirst input.candidateIds).length)
    ∧ (ingestToOpenWebUITool witnessEnv exInput).results.length = 1 := by
  refine ⟨fun env input => (ingest_characterization env input).1,
    fun ids => ⟨dedupFirst_nodup ids, dedupFirst_sublist ids, fun x => mem_dedupFirst x ids⟩,
    fun env input => ?_, by decide⟩
  rw [(ingest_characterization env input).1, List.length_map, List.length_take]

/-- Claim C10: uploaded_success_count equals the number of records with
status "completed", uploaded_failed_count equals the number of remaining
records, and the two counts sum to the length of the results list. -/
theorem claim_C10_counts (env : IngestEnv) (input : IngestInput) :
    (ingestToOpenWebUITool env input).uploadedSuccessCount
      = ((ingestToOpenWebUITool env input).results.filter
          (fun ir => ir.status == "completed")).length
    ∧ (ingestToOpenWebUITool env input).uploadedFailedCount
      = ((ingestToOpenWebUITool env input).results.filter
          (fun ir => !(ir.status == "completed"))).length
    ∧ (ingestToOpenWebUITool env input).uploadedSuccessCount
        + (ingestToOpenWebUITool env input).uploadedFailedCount
      = (ingestToOpenWebUITool env input).results.length := by
  obtain ⟨hres, _, hsucc, hfail⟩ := ingest_characterization env input
  have hcount := loop_success_count env ((dedupFirst input.candidateIds).take input.maxPapers)
  have hsplit := length_filter_split (fun ir : IngestRecord => ir.status == "completed")
    (((dedupFirst input.candidateIds).take input.maxPapers).map
      (fun id => (processOne env id).1))
  have hle := List.length_filter_le (fun ir : IngestRecord => ir.status == "completed")
    (((dedupFirst input.candidateIds).take input.maxPapers).map
      (fun id => (processOne env id).1))
  refine ⟨?_, ?_, ?_⟩
  · rw [hsucc, hcount, hres]
  · rw [hfail, hres, hcount]
    omega
  · rw [hsucc, hfail, hres, hcount]
    omega

/-- Claim C7: `getOrCreateKnowledgeBase` first searches by name; when the
search result contains a base whose trimmed name matches case-insensitively,
it returns such a base (a member of the search result) with created = false
unconditionally; otherwise it creates a base, sending access_control = null
when makePublic and an empty object otherwise, and returns it with created =
true — so two successive calls with the same name (the second seeing the
base created by the first) yield created = true then created = false on the
same base id. -/
theorem claim_C7_get_or_create :
    (∀ (env : IngestEnv) (name desc : String) (mp : Bool),
      (∃ b ∈ env.searchKB name, nameKey b.name = nameKey name) →
        (getOrCreateKnowledgeBase env name desc mp).2 = false
        ∧ (getOrCreateKnowledgeBase env name desc mp).1 ∈ env.searchKB name
        ∧ nameKey (getOrCreateKnowledgeBase env name desc mp).1.name = nameKey name)
    ∧ (∀ (env : IngestEnv) (name desc : String) (mp : Bool),
      (∀ b ∈ env.searchKB name, nameKey b.name ≠ nameKey name) →
        getOrCreateKnowledgeBase env name desc mp =
          (env.createKB { name := name, description := desc
                        , access_control := if mp then none else some () }, true))
    ∧ (∀ (env1 env2 : IngestEnv) (name desc : String) (mp : Bool) (b : Knowledge),
        (∀ x ∈ env1.searchKB name, nameKey x.name ≠ nameKey name) →
        env1.createKB { name := name, description := desc
                      , access_control := if mp then none else some () } = b →
        nameKey b.name = nameKey name →
        env2.searchKB name = [b] →
          getOrCreateKnowledgeBase env1 name desc mp = (b, true)
          ∧ getOrCreateKnowledgeBase env2 name desc mp = (b, false)) := by
  have hfound : ∀ (env : IngestEnv) (name desc : String) (mp : Bool),
      (∃ b ∈ env.searchKB name, nameKey b.name = nameKey name) →
        ∃ b, (env.searchKB name).find? (fun item => nameKey item.name == nameKey name) = some b
          ∧ getOrCreateKnowledgeBase env name desc mp = (b, false) := by
    intro env name desc mp hex
    have hsome : ((env.searchKB name).find?
        (fun item => nameKey item.name == nameKey name)).isSome := by
      rw [List.find?_isSome]
      obtain ⟨b, hb, hn⟩ := hex
      exact ⟨b, hb, by simp [hn]⟩
    obtain ⟨b, hb⟩ := Option.isSome_iff_exists.mp hsome
    refine ⟨b, hb, ?_⟩
    unfold getOrCreateKnowledgeBase
    rw [hb]
  have hbeq : ∀ (x : Knowledge) (name : String), nameKey x.name ≠ nameKey name →
      ¬((nameKey x.name == nameKey name) = true) := by
    intro x name hx
    simp only [beq_iff_eq]
    exact hx
  have hnone : ∀ (env : IngestEnv) (name desc : String) (mp : Bool),
      (∀ b ∈ env.searchKB name, nameKey b.name ≠ nameKey name) →
        getOrCreateKnowledgeBase env name desc mp =
          (env.createKB { name := name, description := desc
                        , access_control := if mp then none else some () }, true) := by
    intro env name desc mp hno
    unfold getOrCreateKnowledgeBase
    rw [List.find?_eq_none.mpr (fun x hx => hbeq x name (hno x hx))]
  refine ⟨?_, hnone, ?_⟩
  · intro env name desc mp hex
    obtain ⟨b, hb, heq⟩ := hfound env name desc mp hex
    have hmem := List.mem_of_find?_eq_some hb
    have hmatch := List.find?_some hb
    rw [heq]
    exact ⟨rfl, hmem, by simpa using hmatch⟩
  · intro env1 env2 name desc mp b h1 h2 h3 h4
    refine ⟨by rw [hnone env1 name desc mp h1, h2], ?_⟩
    unfold getOrCreateKnowledgeBase
    rw [h4]
    have : List.find? (fun item => nameKey item.name == nameKey name) [b] = some b := by
      simp [List.find?, h3]
    rw [this]

def kbWitnessEnv1 : IngestEnv :=
  { witnessEnv with searchKB := fun _ => [] }

def kbWitnessEnv2 : IngestEnv :=
  { witnessEnv with searchKB := fun _ =>
      [{ id := "kb-1", name := "My KB", description := "d", access_control := none }] }

theorem claim_C7_get_or_create_witness :
    getOrCreateKnowledgeBase kbWitnessEnv1 "My KB" "d" true
      = ({ id := "kb-1", name := "My KB", description := "d", access_control := none }, true)
    ∧ getOrCreateKnowledgeBase kbWitnessEnv2 "My KB" "d" true
      = ({ id := "kb-1", name := "My KB", description := "d", access_control := none }, false) :=
  claim_C7_get_or_create.2.2 kbWitnessEnv1 kbWitnessEnv2 "My KB" "d" true
    { id := "kb-1", name := "My KB", description := "d", access_control := none }
    (by simp [kbWitnessEnv1]) rfl rfl rfl

end ScholarOA
